import Mathlib

/-!
Verification of the gke-managed-certs controller sources.

Shallow embedding of:
  * `pkg/controller/sslcertificatemanager/manager.go` — the SslCertificateManager
    (certificate lifecycle manager) and the McertController (state initialization,
    enqueueing, periodic resynchronization / orphan GC).
  * `pkg/controller/controller.go` — `Controller.Run`, the supervisor.
  * `e2e/deploy.go` — the ManagedCertificate CRD schema installed by `deployCRD`.

External effects (the GCE SslCertificates backend, the cluster lister, the event
recorder) are modelled by passing each call's outcome in as data and collecting
the emitted events / issued calls in the result.
-/

/-- Classification of errors returned by the provisioning backend and cluster API.
Modelled from the spec: `pkg/utils/http` is not under src/; the spec says errors
are distinguishable into at least "not found," "quota exceeded," and "other."
The `other` constructor carries a code so that distinct generic errors exist. -/
inductive HttpError
  | notFound
  | quotaExceeded
  | other (code : Nat)
deriving DecidableEq, Repr

/-- Modelled from the spec: `http.IsQuotaExceeded` of `pkg/utils/http` (not under
src/) recognizes exactly the quota-exceeded class of backend errors. -/
def IsQuotaExceeded : HttpError → Bool
  | HttpError.quotaExceeded => true
  | _ => false

/-- Modelled from the spec: `http.IgnoreNotFound` of `pkg/utils/http` (not under
src/) maps a not-found error to nil ("not found" is treated as success) and
passes every other value through unchanged. A Go `error` is `Option HttpError`,
with `none` standing for nil. -/
def IgnoreNotFound : Option HttpError → Option HttpError
  | some HttpError.notFound => none
  | e => e

/-- A declared resource (`api.ManagedCertificate`), with `ObjectMeta.Namespace`,
`ObjectMeta.Name`, `Spec.Domains` and `Status.CertificateName` flattened into
one record. -/
structure ManagedCertificate where
  Namespace : String
  Name : String
  Domains : List String
  StatusCertificateName : String
deriving DecidableEq, Repr

/-- A certificate snapshot returned by the backend (`compute.SslCertificate`);
only the name is relevant to the embedded code. -/
structure SslCertificate where
  Name : String
deriving DecidableEq, Repr

/-- Notification events emitted through `s.client.Event` (the event-recording
collaborator) by the lifecycle manager. -/
inductive Event
  | Create (mcrt : ManagedCertificate) (sslCertificateName : String)
  | Delete (mcrt : ManagedCertificate) (sslCertificateName : String)
  | TooManyCertificates (mcrt : ManagedCertificate) (err : HttpError)
  | BackendError (mcrt : ManagedCertificate) (err : HttpError)
deriving DecidableEq, Repr

/-- `SslCertificateManager.Create` (manager.go:41-55). `backendResult` is the
outcome of `s.client.Ssl.Create(sslCertificateName, mcrt.Spec.Domains)`.
Returns the Go error and the list of events emitted during the call. -/
def SslCertificateManager.Create (backendResult : Option HttpError)
    (sslCertificateName : String) (mcrt : ManagedCertificate) :
    Option HttpError × List Event :=
  match backendResult with
  | some err =>
    if IsQuotaExceeded err then (some err, [Event.TooManyCertificates mcrt err])
    else (some err, [Event.BackendError mcrt err])
  | none => (none, [Event.Create mcrt sslCertificateName])

/-- `SslCertificateManager.Delete` (manager.go:59-74). `backendResult` is the
outcome of `s.client.Ssl.Delete(sslCertificateName)`, to which the code applies
`http.IgnoreNotFound`. `mcrt` is the optional declared-resource context
(`*api.ManagedCertificate`, nil = `none`). -/
def SslCertificateManager.Delete (backendResult : Option HttpError)
    (sslCertificateName : String) (mcrt : Option ManagedCertificate) :
    Option HttpError × List Event :=
  match IgnoreNotFound backendResult with
  | some err =>
    (some err, match mcrt with
      | some m => [Event.BackendError m err]
      | none => [])
  | none =>
    (none, match mcrt with
      | some m => [Event.Delete m sslCertificateName]
      | none => [])

/-- `SslCertificateManager.Exists` (manager.go:78-88). The backend call
`s.client.Ssl.Exists` returns the pair `(backendExists, backendErr)`. -/
def SslCertificateManager.Exists (backendExists : Bool) (backendErr : Option HttpError)
    (mcrt : Option ManagedCertificate) :
    (Bool × Option HttpError) × List Event :=
  match backendErr with
  | some err =>
    ((false, some err), match mcrt with
      | some m => [Event.BackendError m err]
      | none => [])
  | none => ((backendExists, none), [])

/-- `SslCertificateManager.Get` (manager.go:91-101). The backend call
`s.client.Ssl.Get` returns the pair `(backendCert, backendErr)`. -/
def SslCertificateManager.Get (backendCert : Option SslCertificate)
    (backendErr : Option HttpError) (mcrt : Option ManagedCertificate) :
    (Option SslCertificate × Option HttpError) × List Event :=
  match backendErr with
  | some err =>
    ((none, some err), match mcrt with
      | some m => [Event.BackendError m err]
      | none => [])
  | none => ((backendCert, none), [])

/-- Claim C1 counterexample: calling `Delete` with a not-found backend error and
a non-nil resource context returns success but emits a `Delete` ("deleted")
notification — contradicting the claim that no notification is emitted in the
not-found case. -/
theorem delete_notFound_emits_deleted_event_counterexample :
    SslCertificateManager.Delete (some HttpError.notFound) ("cert-foo")
      (some (⟨("ns"), ("foo"), [], ("")⟩ : ManagedCertificate)) =
    (none, [Event.Delete (⟨("ns"), ("foo"), [], ("")⟩ : ManagedCertificate) ("cert-foo")]) := by
  decide

/-- Claim C1 (amended): `Delete` treats a not-found backend error as success; in
both the not-found case and the actually-deleted case it emits exactly one
"deleted" notification when a resource context is present (the manager masks
not-found with `IgnoreNotFound` and cannot distinguish the two cases); any other
error is returned with exactly one "backend error" notification. -/
theorem delete_event_classification (sslCertificateName : String)
    (m : ManagedCertificate) (e : HttpError) :
    SslCertificateManager.Delete (some HttpError.notFound) sslCertificateName (some m) =
      (none, [Event.Delete m sslCertificateName]) ∧
    SslCertificateManager.Delete none sslCertificateName (some m) =
      (none, [Event.Delete m sslCertificateName]) ∧
    (e ≠ HttpError.notFound →
      SslCertificateManager.Delete (some e) sslCertificateName (some m) =
        (some e, [Event.BackendError m e])) := by
  refine ⟨rfl, rfl, fun h => ?_⟩
  cases e with
  | notFound => exact absurd rfl h
  | quotaExceeded => rfl
  | other code => rfl

/-- Witness for `delete_event_classification` at a concrete generic error. -/
theorem delete_event_classification_witness :
    SslCertificateManager.Delete (some (HttpError.other 7)) ("cert-w")
      (some (⟨("ns"), ("w"), [], ("")⟩ : ManagedCertificate)) =
    (some (HttpError.other 7),
      [Event.BackendError (⟨("ns"), ("w"), [], ("")⟩ : ManagedCertificate) (HttpError.other 7)]) :=
  (delete_event_classification ("cert-w") (⟨("ns"), ("w"), [], ("")⟩ : ManagedCertificate)
    (HttpError.other 7)).2.2 (by decide)

/-- Claim C6: `Create` emits exactly one `TooManyCertificates` notification and
returns the error on a quota-exceeded backend error, exactly one `BackendError`
notification and the error on any other backend error, and exactly one `Create`
notification with success when the backend call succeeds. -/
theorem create_event_classification (sslCertificateName : String)
    (m : ManagedCertificate) (e : HttpError) :
    SslCertificateManager.Create none sslCertificateName m =
      (none, [Event.Create m sslCertificateName]) ∧
    (IsQuotaExceeded e = true →
      SslCertificateManager.Create (some e) sslCertificateName m =
        (some e, [Event.TooManyCertificates m e])) ∧
    (IsQuotaExceeded e = false →
      SslCertificateManager.Create (some e) sslCertificateName m =
        (some e, [Event.BackendError m e])) := by
  refine ⟨rfl, fun h => ?_, fun h => ?_⟩
  · simp [SslCertificateManager.Create, h]
  · simp [SslCertificateManager.Create, h]

/-- Witness for `create_event_classification` at a quota-exceeded error. -/
theorem create_event_classification_witness :
    SslCertificateManager.Create (some HttpError.quotaExceeded) ("cert-w")
      (⟨("ns"), ("w"), [], ("")⟩ : ManagedCertificate) =
    (some HttpError.quotaExceeded,
      [Event.TooManyCertificates (⟨("ns"), ("w"), [], ("")⟩ : ManagedCertificate)
        HttpError.quotaExceeded]) :=
  (create_event_classification ("cert-w") (⟨("ns"), ("w"), [], ("")⟩ : ManagedCertificate)
    HttpError.quotaExceeded).2.1 (by decide)

/-- Claim C8: with a nil resource context, `Delete`, `Exists` and `Get` emit no
notification at all, whatever the backend outcome. -/
theorem no_context_no_events (backendResult : Option HttpError)
    (sslCertificateName : String) (backendExists : Bool)
    (backendCert : Option SslCertificate) :
    (SslCertificateManager.Delete backendResult sslCertificateName none).2 = [] ∧
    (SslCertificateManager.Exists backendExists backendResult none).2 = [] ∧
    (SslCertificateManager.Get backendCert backendResult none).2 = [] := by
  refine ⟨?_, ?_, ?_⟩
  · cases backendResult with
    | none => rfl
    | some e => cases e <;> rfl
  · cases backendResult <;> rfl
  · cases backendResult <;> rfl

/-- Claim C9: whenever `Exists` returns a non-nil error its boolean result is
false, and whenever `Get` returns a non-nil error its certificate snapshot is
nil. -/
theorem error_implies_negative_result (backendExists : Bool)
    (backendErr : Option HttpError) (backendCert : Option SslCertificate)
    (mcrt : Option ManagedCertificate) :
    ((SslCertificateManager.Exists backendExists backendErr mcrt).1.2.isSome →
      (SslCertificateManager.Exists backendExists backendErr mcrt).1.1 = false) ∧
    ((SslCertificateManager.Get backendCert backendErr mcrt).1.2.isSome →
      (SslCertificateManager.Get backendCert backendErr mcrt).1.1 = none) := by
  cases backendErr with
  | none => exact ⟨fun h => absurd h (by simp [SslCertificateManager.Exists]),
      fun h => absurd h (by simp [SslCertificateManager.Get])⟩
  | some e => exact ⟨fun _ => rfl, fun _ => rfl⟩

/-- Witness for `error_implies_negative_result` at a concrete backend error. -/
theorem error_implies_negative_result_witness :
    (SslCertificateManager.Exists true (some (HttpError.other 3)) none).1.1 = false ∧
    (SslCertificateManager.Get (some (⟨("c")⟩ : SslCertificate)) (some (HttpError.other 3)) none).1.1 = none :=
  ⟨(error_implies_negative_result true (some (HttpError.other 3)) none none).1 (by decide),
   (error_implies_negative_result true (some (HttpError.other 3))
     (some (⟨("c")⟩ : SslCertificate)) none).2 (by decide)⟩

/-- The State Store. Modelled from the spec: the state-store implementation
(`newMcertState`, `Put`, `Delete`, `GetAllManagedCertificates`,
`GetAllSslCertificates`) is not under src/; the spec gives its contract as a
key → certificate-name map with `Put`, `Get`, `Delete`, all-keys and
all-cert-names queries, at most one entry per key. Represented as an
association list. -/
abbrev McertState := List (String × String)

/-- `Put` stores `certName` under `key`, replacing any previous entry. -/
def McertState.Put (s : McertState) (key certName : String) : McertState :=
  (key, certName) :: s.filter (fun e => e.1 ≠ key)

/-- `Delete` removes the entry stored under `key`, if any. -/
def McertState.Delete (s : McertState) (key : String) : McertState :=
  s.filter (fun e => e.1 ≠ key)

/-- All keys currently in the store (the state's managed-certificate names). -/
def McertState.GetAllManagedCertificates (s : McertState) : List String :=
  s.map (fun e => e.1)

/-- All certificate names currently referenced by the store. -/
def McertState.GetAllSslCertificates (s : McertState) : List String :=
  s.map (fun e => e.2)

/-- Lookup of the certificate name stored under `key`. -/
def McertState.Get (s : McertState) (key : String) : Option String :=
  (s.find? (fun e => e.1 = key)).map (fun e => e.2)

/-- `cache.MetaNamespaceKeyFunc` of k8s client-go, used by `McertController.enqueue`
(manager.go:142-148): the key of a namespaced object is `namespace/name`, and
`name` alone for an object with empty namespace. -/
def MetaNamespaceKeyFunc (m : ManagedCertificate) : String :=
  if m.Namespace = ("") then m.Name else m.Namespace ++ ("/") ++ m.Name

/-- `McertController.enqueue` (manager.go:142-148): computes the object's
namespace/name key and adds it to the work queue via `AddRateLimited`. The
queue is modelled as the list of keys added, in order. -/
def McertController.enqueue (queue : List String) (m : ManagedCertificate) : List String :=
  queue ++ [MetaNamespaceKeyFunc m]

/-- `McertController.initializeState` (manager.go:129-140): lists all declared
resources (`listResult` is the lister's outcome) and, for each, `Put`s its
status certificate name into the state under the key `mcert.ObjectMeta.Name`. -/
def McertController.initializeState (listResult : Except HttpError (List ManagedCertificate))
    (s : McertState) : Except HttpError McertState :=
  match listResult with
  | Except.error e => Except.error e
  | Except.ok mcerts =>
    Except.ok (mcerts.foldl (fun st m => McertState.Put st m.Name m.StatusCertificateName) s)

/-- One Go-map insertion for a map represented as an association list with
unique keys: an existing binding of `key` is overwritten. -/
def mapInsert (acc : List (String × ManagedCertificate)) (key : String)
    (v : ManagedCertificate) : List (String × ManagedCertificate) :=
  (acc.filter (fun e => e.1 ≠ key)) ++ [(key, v)]

/-- The map `result[mcert.ObjectMeta.Name] = mcert` built by
`McertController.getAllMcertsInCluster` (manager.go:150-162) from the lister's
result; a later resource with the same name overwrites an earlier one. -/
def buildMcertMap (mcerts : List ManagedCertificate) : List (String × ManagedCertificate) :=
  mcerts.foldl (fun acc m => mapInsert acc m.Name m) []

/-- `McertController.getAllMcertsInCluster` (manager.go:150-162). -/
def McertController.getAllMcertsInCluster
    (listResult : Except HttpError (List ManagedCertificate)) :
    Except HttpError (List (String × ManagedCertificate)) :=
  match listResult with
  | Except.error e => Except.error e
  | Except.ok mcerts => Except.ok (buildMcertMap mcerts)

/-- `McertController.deleteObsoleteMcertsFromState` (manager.go:164-173): the
loop reads all state keys and calls `state.Delete` on every key that is not a
key of `allMcertsInCluster`; its net effect on the store is to keep exactly the
entries whose key is present in the cluster map. -/
def McertController.deleteObsoleteMcertsFromState
    (allMcertsInCluster : List (String × ManagedCertificate)) (s : McertState) : McertState :=
  s.filter (fun e => allMcertsInCluster.any (fun c => c.1 = e.1))

/-- Result of one run of `deleteObsoleteSslCertificates`: the Go error the
function returns, the provider's certificate set after the run, the names for
which `sslClient.Delete` was called, and the `glog.Infof` lines emitted. -/
structure SslCleanupResult where
  err : Option HttpError
  provider : List String
  deleteCalls : List String
  logs : List String
deriving DecidableEq, Repr

/-- `McertController.deleteObsoleteSslCertificates` (manager.go:175-196).
`listErr` is the outcome of `sslClient.List()`; on success the listing returns
the provider's current certificate names (`provider`). The loop calls
`sslClient.Delete` on every listed name not among the state's certificate names
(the Go set stores `true` for every key, so the loop's `!exists || !known` test
is exactly non-membership); the `Delete` return value is discarded and the
"Deleted ..." log line is emitted for each such name unconditionally. A name
leaves the provider exactly when its delete call succeeds (`deleteOutcome`
gives each call's outcome). -/
def McertController.deleteObsoleteSslCertificates (s : McertState)
    (listErr : Option HttpError) (deleteOutcome : String → Option HttpError)
    (provider : List String) : SslCleanupResult :=
  match listErr with
  | some e => ⟨some e, provider, [], []⟩
  | none =>
    let allKnownSslCerts := McertState.GetAllSslCertificates s
    let calls := provider.filter (fun n => !(allKnownSslCerts.contains n))
    ⟨none,
     provider.filter (fun n => allKnownSslCerts.contains n || (deleteOutcome n).isSome),
     calls,
     calls.map (fun n => ("Deleted ") ++ n ++ (" SslCertificate resource, because there is no such ssl certificate in state"))⟩

/-- Result of one run of `synchronizeAllMcerts`: the state store and provider
afterwards, the keys enqueued during the run, and the delete calls issued. -/
structure ResyncResult where
  state : McertState
  provider : List String
  enqueued : List String
  deleteCalls : List String
deriving DecidableEq, Repr

/-- `McertController.synchronizeAllMcerts` (manager.go:198-216): list the
cluster (aborting on error), drop state entries whose key is absent from the
listing, run the provider orphan cleanup (aborting before any enqueue if the
provider listing failed), then enqueue every entry of the cluster map. -/
def McertController.synchronizeAllMcerts
    (listResult : Except HttpError (List ManagedCertificate))
    (sslListErr : Option HttpError) (deleteOutcome : String → Option HttpError)
    (s : McertState) (provider : List String) : ResyncResult :=
  match McertController.getAllMcertsInCluster listResult with
  | Except.error _ => ⟨s, provider, [], []⟩
  | Except.ok allMcertsInCluster =>
    let s1 := McertController.deleteObsoleteMcertsFromState allMcertsInCluster s
    let cleanup := McertController.deleteObsoleteSslCertificates s1 sslListErr deleteOutcome provider
    match cleanup.err with
    | some _ => ⟨s1, cleanup.provider, [], cleanup.deleteCalls⟩
    | none =>
      ⟨s1, cleanup.provider,
       allMcertsInCluster.foldl (fun q e => McertController.enqueue q e.2) [],
       cleanup.deleteCalls⟩

/-- The loops a run of the controller can start. -/
inductive Loop
  | mcertWorker
  | mcertResync
  | ingress
  | ingressWorker
deriving DecidableEq, Repr

/-- Outcome of a run: which loops were ever started, and whether an error was
sent on the supervisor's error channel. -/
structure RunOutcome where
  loopsStarted : List Loop
  errorSent : Bool
deriving DecidableEq, Repr

/-- `McertController.Run` (manager.go:114-127): runs `initializeState`; on
failure it sends the error on the error channel and returns without starting
anything; on success it starts the worker loop and the resync loop. -/
def McertController.Run (listResult : Except HttpError (List ManagedCertificate))
    (s : McertState) : RunOutcome :=
  match McertController.initializeState listResult s with
  | Except.error _ => ⟨[], true⟩
  | Except.ok _ => ⟨[Loop.mcertWorker, Loop.mcertResync], false⟩

/-- `Controller.Run` (controller.go:63-96): waits for the cache sync (returning
with nothing started on timeout), then unconditionally starts the mcert
sub-controller, the ingress sub-controller and the ingress worker loop as
concurrent units; `loopsStarted` collects every loop started during the run. -/
def Controller.Run (cacheSyncOk : Bool)
    (listResult : Except HttpError (List ManagedCertificate)) (s : McertState) : RunOutcome :=
  if cacheSyncOk then
    let m := McertController.Run listResult s
    ⟨m.loopsStarted ++ [Loop.ingress, Loop.ingressWorker], m.errorSent⟩
  else ⟨[], false⟩

/-- Claim C2 counterexample: with the cache synced and `initializeState`
failing, the ingress loop is still started — the failure does not abort startup
of every loop. -/
theorem run_starts_ingress_despite_init_failure_counterexample :
    Loop.ingress ∈ (Controller.Run true (Except.error (HttpError.other 0)) []).loopsStarted ∧
    Loop.ingressWorker ∈ (Controller.Run true (Except.error (HttpError.other 0)) []).loopsStarted := by
  decide

/-- Claim C2 (amended): if `initializeState` fails, the mcert worker loop and
the mcert resync loop are never started and the error is sent to the
supervisor's error channel (which then broadcasts shutdown); the ingress loop
and the ingress worker loop are started regardless, since `Controller.Run`
launches them unconditionally and concurrently with the mcert sub-controller. -/
theorem init_failure_aborts_mcert_loops_only (e : HttpError) (s : McertState) :
    Loop.mcertWorker ∉ (Controller.Run true (Except.error e) s).loopsStarted ∧
    Loop.mcertResync ∉ (Controller.Run true (Except.error e) s).loopsStarted ∧
    (Controller.Run true (Except.error e) s).errorSent = true ∧
    Loop.ingress ∈ (Controller.Run true (Except.error e) s).loopsStarted := by
  refine ⟨?_, ?_, rfl, ?_⟩ <;>
    simp [Controller.Run, McertController.Run, McertController.initializeState]

/-- Claim C4 counterexample: for the resource `ns/foo`, `initializeState` stores
its StateEntry under the bare name `foo`, while the key enqueued for its change
events is `ns/foo`; the enqueued key is not a key of the state store. -/
theorem state_key_differs_from_queue_key_counterexample :
    McertController.initializeState
      (Except.ok [(⟨("ns"), ("foo"), [], ("")⟩ : ManagedCertificate)]) [] =
      Except.ok [(("foo"), (""))] ∧
    MetaNamespaceKeyFunc (⟨("ns"), ("foo"), [], ("")⟩ : ManagedCertificate) = ("ns/foo") ∧
    ("ns/foo") ∉ McertState.GetAllManagedCertificates [(("foo"), (""))] := by
  refine ⟨rfl, rfl, ?_⟩
  decide

/-- Claim C4 (amended): `initializeState` keys the State Store by the resource's
name alone (`mcert.ObjectMeta.Name`), while the key pushed onto the work queue
for the resource's change events is the namespace/name pair produced by
`MetaNamespaceKeyFunc`; for every resource with a non-empty namespace the two
keys differ. -/
theorem state_keyed_by_name_queue_keyed_by_namespace_name
    (m : ManagedCertificate) (l : List ManagedCertificate) (s : McertState) :
    McertController.initializeState (Except.ok (m :: l)) s =
      McertController.initializeState (Except.ok l)
        (McertState.Put s m.Name m.StatusCertificateName) ∧
    MetaNamespaceKeyFunc m =
      (if m.Namespace = ("") then m.Name else m.Namespace ++ ("/") ++ m.Name) ∧
    (m.Namespace ≠ ("") → MetaNamespaceKeyFunc m ≠ m.Name) := by
  refine ⟨rfl, rfl, fun hns heq => ?_⟩
  rw [MetaNamespaceKeyFunc, if_neg hns] at heq
  have hlen := congrArg String.length heq
  rw [String.length_append, String.length_append] at hlen
  have hone : (("/") : String).length = 1 := by decide
  omega

/-- Witness for `state_keyed_by_name_queue_keyed_by_namespace_name` at the
concrete resource `ns/w`. -/
theorem state_keyed_by_name_witness :
    MetaNamespaceKeyFunc (⟨("ns"), ("w"), [], ("")⟩ : ManagedCertificate) ≠
      (⟨("ns"), ("w"), [], ("")⟩ : ManagedCertificate).Name :=
  (state_keyed_by_name_queue_keyed_by_namespace_name
    (⟨("ns"), ("w"), [], ("")⟩ : ManagedCertificate) [] []).2.2 (by decide)

/-- `contains` on a list of strings is membership. -/
theorem contains_eq_true_iff_mem (l : List String) (a : String) :
    l.contains a = true ↔ a ∈ l := by
  simp [List.contains_eq_any_beq, List.any_eq_true, beq_iff_eq]

/-- Folding `enqueue` over the entries of a map appends each entry's
namespace/name key, in order. -/
theorem foldl_enqueue_eq_append_map (entries : List (String × ManagedCertificate))
    (q : List String) :
    entries.foldl (fun acc e => McertController.enqueue acc e.2) q =
      q ++ entries.map (fun e => MetaNamespaceKeyFunc e.2) := by
  induction entries generalizing q with
  | nil => exact (List.append_nil q).symm
  | cons hd tl ih =>
    rw [List.foldl_cons, ih]
    simp [McertController.enqueue]

/-- Every entry of the cluster map built by `getAllMcertsInCluster` comes from
the accumulator or has the name of a listed resource as its key. -/
theorem mem_foldl_mapInsert (l : List ManagedCertificate)
    (acc : List (String × ManagedCertificate)) (c : String × ManagedCertificate)
    (hc : c ∈ l.foldl (fun a m => mapInsert a m.Name m) acc) :
    c ∈ acc ∨ c.1 ∈ l.map (fun x => x.Name) := by
  induction l generalizing acc with
  | nil => exact Or.inl hc
  | cons hd tl ih =>
    rcases ih (mapInsert acc hd.Name hd) hc with h | h
    · rcases List.mem_append.mp h with h1 | h1
      · exact Or.inl (List.mem_of_mem_filter h1)
      · rcases List.mem_singleton.mp h1 with rfl
        exact Or.inr (by simp)
    · exact Or.inr (by simp [h])

/-- When the listed resources have pairwise distinct names, the cluster map
built by `getAllMcertsInCluster` is exactly one entry per listed resource, in
listing order. -/
theorem foldl_mapInsert_eq_of_nodup (l : List ManagedCertificate)
    (acc : List (String × ManagedCertificate))
    (hdisj : ∀ m ∈ l, ∀ e ∈ acc, e.1 ≠ m.Name)
    (hnodup : (l.map (fun x => x.Name)).Nodup) :
    l.foldl (fun a m => mapInsert a m.Name m) acc =
      acc ++ l.map (fun m => (m.Name, m)) := by
  induction l generalizing acc with
  | nil => simp
  | cons hd tl ih =>
    have hhd : ∀ e ∈ acc, e.1 ≠ hd.Name :=
      fun e he => hdisj hd (List.mem_cons_self hd tl) e he
    have hfilter : acc.filter (fun e => e.1 ≠ hd.Name) = acc := by
      rw [List.filter_eq_self]
      intro e he
      simpa using hhd e he
    have hmap : hd.Name ∉ tl.map (fun x => x.Name) :=
      (List.nodup_cons.mp (by simpa using hnodup)).1
    have hdisj2 : ∀ m ∈ tl, ∀ e ∈ acc ++ [(hd.Name, hd)], e.1 ≠ m.Name := by
      intro m hm e he
      rcases List.mem_append.mp he with h1 | h1
      · exact hdisj m (List.mem_cons_of_mem hd hm) e h1
      · rcases List.mem_singleton.mp h1 with rfl
        intro hcontra
        have hname : hd.Name = m.Name := hcontra
        exact hmap (hname ▸ List.mem_map_of_mem (fun x => x.Name) hm)
    have hnodup2 : (tl.map (fun x => x.Name)).Nodup :=
      (List.nodup_cons.mp (by simpa using hnodup)).2
    have hins : mapInsert acc hd.Name hd = acc ++ [(hd.Name, hd)] := by
      rw [mapInsert, hfilter]
    rw [List.foldl_cons, hins, ih (acc ++ [(hd.Name, hd)]) hdisj2 hnodup2]
    simp

/-- The keys enqueued by one resync pass whose listings both succeed are the
namespace/name keys of the cluster map's entries. -/
theorem resync_enqueued_eq (l : List ManagedCertificate)
    (deleteOutcome : String → Option HttpError) (s : McertState) (provider : List String) :
    (McertController.synchronizeAllMcerts (Except.ok l) none deleteOutcome s provider).enqueued =
      (buildMcertMap l).map (fun e => MetaNamespaceKeyFunc e.2) := by
  show (buildMcertMap l).foldl (fun acc e => McertController.enqueue acc e.2) [] = _
  rw [foldl_enqueue_eq_append_map]
  simp

/-- The state store produced by one resync pass whose cluster listing succeeds. -/
theorem resync_state_eq (l : List ManagedCertificate)
    (deleteOutcome : String → Option HttpError) (s : McertState) (provider : List String) :
    (McertController.synchronizeAllMcerts (Except.ok l) none deleteOutcome s provider).state =
      McertController.deleteObsoleteMcertsFromState (buildMcertMap l) s := rfl

/-- The provider contents after one resync pass whose listings both succeed. -/
theorem resync_provider_eq (l : List ManagedCertificate)
    (deleteOutcome : String → Option HttpError) (s : McertState) (provider : List String) :
    (McertController.synchronizeAllMcerts (Except.ok l) none deleteOutcome s provider).provider =
      provider.filter (fun n =>
        (McertState.GetAllSslCertificates
          (McertController.deleteObsoleteMcertsFromState (buildMcertMap l) s)).contains n ||
        (deleteOutcome n).isSome) := rfl

/-- Claim C5 counterexample: two declared resources `ns1/foo` and `ns2/foo`
share the name `foo`; the cluster map collapses them, so in a resync cycle in
which every external call succeeds the key `ns1/foo` of a listed resource is
enqueued zero times. -/
theorem resync_name_collision_key_not_enqueued_counterexample :
    ((⟨("ns1"), ("foo"), [], ("")⟩ : ManagedCertificate) ∈
      [(⟨("ns1"), ("foo"), [], ("")⟩ : ManagedCertificate),
       (⟨("ns2"), ("foo"), [], ("")⟩ : ManagedCertificate)]) ∧
    MetaNamespaceKeyFunc (⟨("ns1"), ("foo"), [], ("")⟩ : ManagedCertificate) = ("ns1/foo") ∧
    (McertController.synchronizeAllMcerts
      (Except.ok [(⟨("ns1"), ("foo"), [], ("")⟩ : ManagedCertificate),
                  (⟨("ns2"), ("foo"), [], ("")⟩ : ManagedCertificate)])
      none (fun _ => none) [] []).enqueued = [("ns2/foo")] ∧
    (McertController.synchronizeAllMcerts
      (Except.ok [(⟨("ns1"), ("foo"), [], ("")⟩ : ManagedCertificate),
                  (⟨("ns2"), ("foo"), [], ("")⟩ : ManagedCertificate)])
      none (fun _ => none) [] []).enqueued.count ("ns1/foo") = 0 := by
  decide

/-- Claim C5 (amended): in a resync cycle in which the declared-resource listing
and the provider listing both succeed, and the listed resources have pairwise
distinct names and pairwise distinct namespace/name keys (always true for valid
Kubernetes objects), every listed resource's key is enqueued exactly once; a
provider-listing failure aborts the cycle before any enqueue, and resources
sharing a name collapse to a single enqueue. -/
theorem resync_reenqueues_each_listed_key_once (l : List ManagedCertificate)
    (deleteOutcome : String → Option HttpError) (s : McertState) (provider : List String)
    (m : ManagedCertificate)
    (hnames : (l.map (fun x => x.Name)).Nodup)
    (hkeys : (l.map MetaNamespaceKeyFunc).Nodup)
    (hm : m ∈ l) :
    (McertController.synchronizeAllMcerts (Except.ok l) none deleteOutcome s
      provider).enqueued.count (MetaNamespaceKeyFunc m) = 1 := by
  have hb : buildMcertMap l = l.map (fun x => (x.Name, x)) := by
    have h := foldl_mapInsert_eq_of_nodup l []
      (fun x _ e he => absurd he (List.not_mem_nil e)) hnames
    simpa [buildMcertMap] using h
  rw [resync_enqueued_eq, hb, List.map_map]
  have hcomp : ((fun e : String × ManagedCertificate => MetaNamespaceKeyFunc e.2) ∘
      fun x : ManagedCertificate => (x.Name, x)) = MetaNamespaceKeyFunc := rfl
  rw [hcomp]
  exact List.count_eq_one_of_mem hkeys (List.mem_map_of_mem MetaNamespaceKeyFunc hm)

/-- Witness for `resync_reenqueues_each_listed_key_once` at a concrete
two-resource cluster. -/
theorem resync_reenqueues_witness :
    (McertController.synchronizeAllMcerts
      (Except.ok [(⟨("ns1"), ("a"), [], ("")⟩ : ManagedCertificate),
                  (⟨("ns2"), ("b"), [], ("")⟩ : ManagedCertificate)])
      none (fun _ => none) [] []).enqueued.count
      (MetaNamespaceKeyFunc (⟨("ns1"), ("a"), [], ("")⟩ : ManagedCertificate)) = 1 :=
  resync_reenqueues_each_listed_key_once
    [(⟨("ns1"), ("a"), [], ("")⟩ : ManagedCertificate),
     (⟨("ns2"), ("b"), [], ("")⟩ : ManagedCertificate)]
    (fun _ => none) [] [] (⟨("ns1"), ("a"), [], ("")⟩ : ManagedCertificate)
    (by decide) (by decide) (by decide)

/-- Claim C3 counterexample: with both listings succeeding (an empty cluster
listing and a one-certificate provider listing), the unreferenced certificate
`cert-orphan` is still present in the provider after the pass because its
backend delete call failed — the pass only attempts the deletion, it cannot
guarantee it. -/
theorem resync_failed_delete_leaves_orphan_counterexample :
    ("cert-orphan") ∈ (McertController.synchronizeAllMcerts (Except.ok []) none
      (fun _ => some (HttpError.other 2)) [] [("cert-orphan")]).provider ∧
    ("cert-orphan") ∉ McertState.GetAllSslCertificates
      (McertController.synchronizeAllMcerts (Except.ok []) none
        (fun _ => some (HttpError.other 2)) [] [("cert-orphan")]).state := by
  decide

/-- Claim C3 (amended): after one resync pass in which the declared-resource
listing and the provider listing both succeed and every orphan deletion issued
by the pass succeeds, every StateEntry whose key is absent from the listing has
been removed from the State Store, every provider certificate name not
referenced by a remaining StateEntry has been deleted from the provider, and
every certificate name still referenced by a StateEntry remains. -/
theorem resync_gc_convergence (l : List ManagedCertificate) (s : McertState)
    (provider : List String) (k n : String) :
    (k ∉ l.map (fun x => x.Name) →
      k ∉ McertState.GetAllManagedCertificates
        (McertController.synchronizeAllMcerts (Except.ok l) none (fun _ => none) s
          provider).state) ∧
    (n ∈ provider →
      n ∉ McertState.GetAllSslCertificates
        (McertController.synchronizeAllMcerts (Except.ok l) none (fun _ => none) s
          provider).state →
      n ∉ (McertController.synchronizeAllMcerts (Except.ok l) none (fun _ => none) s
          provider).provider) ∧
    (n ∈ provider →
      n ∈ McertState.GetAllSslCertificates
        (McertController.synchronizeAllMcerts (Except.ok l) none (fun _ => none) s
          provider).state →
      n ∈ (McertController.synchronizeAllMcerts (Except.ok l) none (fun _ => none) s
          provider).provider) := by
  refine ⟨fun hk hmem => ?_, fun hn hnot hmem => ?_, fun hn hmem => ?_⟩
  · rw [resync_state_eq] at hmem
    rcases List.mem_map.mp hmem with ⟨e, he, hek⟩
    rcases List.mem_filter.mp he with ⟨_, hpred⟩
    rcases List.any_eq_true.mp hpred with ⟨c, hc, hceq⟩
    have hkey : c.1 ∈ l.map (fun x => x.Name) := by
      rcases mem_foldl_mapInsert l [] c hc with h | h
      · exact absurd h (List.not_mem_nil c)
      · exact h
    rw [of_decide_eq_true hceq, hek] at hkey
    exact hk hkey
  · rw [resync_provider_eq] at hmem
    rcases List.mem_filter.mp hmem with ⟨_, hpred⟩
    rw [resync_state_eq] at hnot
    simp only [Option.isSome_none, Bool.or_false] at hpred
    exact hnot ((contains_eq_true_iff_mem _ n).mp hpred)
  · rw [resync_provider_eq]
    refine List.mem_filter.mpr ⟨hn, ?_⟩
    rw [resync_state_eq] at hmem
    simp only [Option.isSome_none, Bool.or_false]
    exact (contains_eq_true_iff_mem _ n).mpr hmem

/-- Witness for `resync_gc_convergence`: the resource `ns/a-key` stays, the
state key `gone` (whose resource was deleted) is removed, the orphaned
certificate `cert-orphan` is deleted from the provider, and the referenced
certificate `cert-a` remains. -/
theorem resync_gc_convergence_witness :
    ("gone") ∉ McertState.GetAllManagedCertificates
      (McertController.synchronizeAllMcerts
        (Except.ok [(⟨("ns"), ("a-key"), [], ("cert-a")⟩ : ManagedCertificate)]) none
        (fun _ => none) [(("a-key"), ("cert-a")), (("gone"), ("cert-gone"))]
        [("cert-a"), ("cert-orphan")]).state ∧
    ("cert-orphan") ∉ (McertController.synchronizeAllMcerts
        (Except.ok [(⟨("ns"), ("a-key"), [], ("cert-a")⟩ : ManagedCertificate)]) none
        (fun _ => none) [(("a-key"), ("cert-a")), (("gone"), ("cert-gone"))]
        [("cert-a"), ("cert-orphan")]).provider ∧
    ("cert-a") ∈ (McertController.synchronizeAllMcerts
        (Except.ok [(⟨("ns"), ("a-key"), [], ("cert-a")⟩ : ManagedCertificate)]) none
        (fun _ => none) [(("a-key"), ("cert-a")), (("gone"), ("cert-gone"))]
        [("cert-a"), ("cert-orphan")]).provider :=
  ⟨(resync_gc_convergence [(⟨("ns"), ("a-key"), [], ("cert-a")⟩ : ManagedCertificate)]
      [(("a-key"), ("cert-a")), (("gone"), ("cert-gone"))]
      [("cert-a"), ("cert-orphan")] ("gone") ("x")).1 (by decide),
   (resync_gc_convergence [(⟨("ns"), ("a-key"), [], ("cert-a")⟩ : ManagedCertificate)]
      [(("a-key"), ("cert-a")), (("gone"), ("cert-gone"))]
      [("cert-a"), ("cert-orphan")] ("x") ("cert-orphan")).2.1 (by decide) (by decide),
   (resync_gc_convergence [(⟨("ns"), ("a-key"), [], ("cert-a")⟩ : ManagedCertificate)]
      [(("a-key"), ("cert-a")), (("gone"), ("cert-gone"))]
      [("cert-a"), ("cert-orphan")] ("x") ("cert-a")).2.2 (by decide) (by decide)⟩

/-- Claim C7 counterexample: one orphaned certificate whose backend delete
fails: the cleanup still returns nil, the per-name success log line is emitted
anyway, and the failure is recorded nowhere — the deletion error is neither
logged nor surfaced. -/
theorem orphan_delete_error_silently_ignored_counterexample :
    (McertController.deleteObsoleteSslCertificates [] none
      (fun _ => some (HttpError.other 1)) [("cert-orphan")]).err = none ∧
    (McertController.deleteObsoleteSslCertificates [] none
      (fun _ => some (HttpError.other 1)) [("cert-orphan")]).deleteCalls = [("cert-orphan")] ∧
    (McertController.deleteObsoleteSslCertificates [] none
      (fun _ => some (HttpError.other 1)) [("cert-orphan")]).provider = [("cert-orphan")] ∧
    (McertController.deleteObsoleteSslCertificates [] none
      (fun _ => some (HttpError.other 1)) [("cert-orphan")]).logs =
      [("Deleted cert-orphan SslCertificate resource, because there is no such ssl certificate in state")] := by
  refine ⟨rfl, rfl, rfl, ?_⟩
  decide

/-- Claim C7 (amended): during the orphan-cleanup step, a deletion is attempted
for every certificate name listed by the provider but referenced by no
StateEntry; which deletions are attempted does not depend on any deletion's
outcome, so one failure never prevents the remaining deletions; deletion errors
are silently ignored — the call's return value is discarded, the cleanup
returns success, and only the unconditional per-name "Deleted ..." line is
logged. -/
theorem orphan_cleanup_attempts_every_orphan (s : McertState) (provider : List String)
    (deleteOutcome deleteOutcome2 : String → Option HttpError) (n : String) :
    (McertController.deleteObsoleteSslCertificates s none deleteOutcome provider).err = none ∧
    (McertController.deleteObsoleteSslCertificates s none deleteOutcome provider).deleteCalls =
      (McertController.deleteObsoleteSslCertificates s none deleteOutcome2 provider).deleteCalls ∧
    (n ∈ provider → n ∉ McertState.GetAllSslCertificates s →
      n ∈ (McertController.deleteObsoleteSslCertificates s none deleteOutcome
        provider).deleteCalls) := by
  refine ⟨rfl, rfl, fun hn hnot => ?_⟩
  refine List.mem_filter.mpr ⟨hn, ?_⟩
  simp only [Bool.not_eq_true']
  cases hcb : (McertState.GetAllSslCertificates s).contains n with
  | true => exact ((hnot ((contains_eq_true_iff_mem _ n).mp hcb))).elim
  | false => rfl

/-- The DNS-name pattern `domainRegex` of `deployCRD` (deploy.go:43). -/
def domainRegex : String :=
  "^(([a-zA-Z0-9]+|[a-zA-Z0-9][-a-zA-Z0-9]*[a-zA-Z0-9])\\.)+[a-zA-Z][-a-zA-Z0-9]*[a-zA-Z0-9]\\.?$"

/-- The validation constraints on `spec.domains` in one CRD schema variant:
`MaxItems` on the array, `MaxLength` and `Pattern` on each item
(deploy.go:85-99 and 131-145). -/
structure DomainsSchema where
  MaxItems : Nat
  MaxLength : Nat
  Pattern : String
deriving DecidableEq, Repr

/-- One entry of the CRD's `Versions` list (deploy.go:57-150). -/
structure CrdVersion where
  Name : String
  Served : Bool
  Storage : Bool
  Domains : DomainsSchema
deriving DecidableEq, Repr

/-- The two schema variants installed by `deployCRD` (deploy.go:42-186):
`v1beta1` with `MaxItems = maxDomains1 = 1` and `v1beta2` with
`MaxItems = maxDomains100 = 100`, both with `MaxLength = maxDomainLength = 63`
and the same `domainRegex` pattern on each domain. -/
def deployCRDVersions : List CrdVersion :=
  [⟨("v1beta1"), true, false, ⟨1, 63, domainRegex⟩⟩,
   ⟨("v1beta2"), true, true, ⟨100, 63, domainRegex⟩⟩]

/-- OpenAPI v3 semantics of the three keywords the schema uses on `domains`:
the array has at most `MaxItems` items and every item has length at most
`MaxLength` and matches `Pattern` (regex matching abstracted as a parameter). -/
def domainsSchemaAllows (sch : DomainsSchema) (matchesPattern : String → String → Bool)
    (domains : List String) : Bool :=
  decide (domains.length ≤ sch.MaxItems) &&
    domains.all (fun d => decide (d.length ≤ sch.MaxLength) && matchesPattern sch.Pattern d)

/-- Claim C10 counterexample: the `v1beta1` variant's only cardinality
constraint is `MaxItems = 1`, so it accepts an empty domains list (even under a
pattern rejecting every string) — it limits the list to at most 1 domain, not
to exactly 1. -/
theorem crd_v1beta1_allows_empty_domains_counterexample :
    deployCRDVersions.map (fun v => (v.Name, v.Domains.MaxItems)) =
      [(("v1beta1"), 1), (("v1beta2"), 100)] ∧
    domainsSchemaAllows (⟨1, 63, domainRegex⟩ : DomainsSchema) (fun _ _ => false) [] = true ∧
    ([] : List String).length ≠ 1 := by
  refine ⟨rfl, rfl, by decide⟩

/-- Claim C10 (amended): the CRD deployment installs two schema variants,
`v1beta1` limiting the domains list to at most 1 domain and `v1beta2` to at
most 100; in both variants every domain string is limited to length at most 63
and must match the same DNS-name pattern; any accepted domains list satisfies
exactly these bounds. -/
theorem crd_two_variants_domain_constraints (sch : DomainsSchema)
    (matchesPattern : String → String → Bool) (domains : List String)
    (h : domainsSchemaAllows sch matchesPattern domains = true) :
    deployCRDVersions.map (fun v => v.Name) = [("v1beta1"), ("v1beta2")] ∧
    deployCRDVersions.map (fun v => v.Domains.MaxItems) = [1, 100] ∧
    deployCRDVersions.map (fun v => v.Domains.MaxLength) = [63, 63] ∧
    deployCRDVersions.map (fun v => v.Domains.Pattern) = [domainRegex, domainRegex] ∧
    domains.length ≤ sch.MaxItems ∧
    (∀ d ∈ domains, d.length ≤ sch.MaxLength ∧ matchesPattern sch.Pattern d = true) := by
  rw [domainsSchemaAllows, Bool.and_eq_true, decide_eq_true_eq, List.all_eq_true] at h
  refine ⟨rfl, rfl, rfl, rfl, h.1, fun d hd => ?_⟩
  have hdd := h.2 d hd
  rw [Bool.and_eq_true, decide_eq_true_eq] at hdd
  exact hdd

/-- Witness for `crd_two_variants_domain_constraints` at the singleton list
accepted by the `v1beta1` variant. -/
theorem crd_two_variants_witness :
    ([("a")] : List String).length ≤ 1 :=
  (crd_two_variants_domain_constraints (⟨1, 63, domainRegex⟩ : DomainsSchema)
    (fun _ _ => true) [("a")] (by decide)).2.2.2.2.1

/-- Witness for `init_failure_aborts_mcert_loops_only` at a concrete
initialization error. -/
theorem init_failure_aborts_mcert_loops_only_witness :
    (Controller.Run true (Except.error (HttpError.other 5)) []).errorSent = true ∧
    Loop.ingress ∈ (Controller.Run true (Except.error (HttpError.other 5)) []).loopsStarted :=
  ⟨(init_failure_aborts_mcert_loops_only (HttpError.other 5) []).2.2.1,
   (init_failure_aborts_mcert_loops_only (HttpError.other 5) []).2.2.2⟩

/-- Witness for `orphan_cleanup_attempts_every_orphan` at a concrete orphan
whose delete call fails. -/
theorem orphan_cleanup_attempts_every_orphan_witness :
    ("cert-orphan") ∈ (McertController.deleteObsoleteSslCertificates [] none
      (fun _ => some (HttpError.other 9)) [("cert-orphan")]).deleteCalls :=
  (orphan_cleanup_attempts_every_orphan [] [("cert-orphan")]
    (fun _ => some (HttpError.other 9)) (fun _ => none) ("cert-orphan")).2.2
    (by decide) (by decide)
